import Mathlib

/-!
Shallow embedding of the multi-threaded web crawler
(`src/include/thread_safe_set.hpp`, `src/include/thread_safe_queue.hpp`,
`src/src/main.cpp`).  URLs are modelled as `List Char` (the character
sequence underlying `std::string`); the visited set as the list of its
elements; the queue as the list of its elements front-first.  Each C++
string primitive used by the crawler (`find`, `rfind`, `substr`,
prefix tests) is embedded as an executable Lean function below.
-/

namespace Crawler

/-- C++ `s.rfind(pat, 0) == 0`: `pat` is a literal prefix of `s`. -/
def starts_with (pat s : List Char) : Bool :=
  List.isPrefixOf pat s

/-- C++ `s.find(pat)` for a string needle: index of the first occurrence of
`pat` as a contiguous substring of `s`, `none` for `npos`. -/
def find_sub (pat : List Char) : List Char → Option Nat
  | [] => if List.isPrefixOf pat ([] : List Char) then some 0 else none
  | c :: rest =>
    if List.isPrefixOf pat (c :: rest) then some 0
    else (find_sub pat rest).map (· + 1)

/-- C++ `s.find(c, pos)`: index of the first occurrence of character `c` at
position `≥ pos`, `none` for `npos`. -/
def find_char_from (c : Char) (pos : Nat) (s : List Char) : Option Nat :=
  (List.findIdx? (· = c) (s.drop pos)).map (· + pos)

/-- C++ `s.find(c)`. -/
def find_char (c : Char) (s : List Char) : Option Nat :=
  find_char_from c 0 s

/-- C++ `s.rfind(c)`: index of the last occurrence of `c`, `none` for `npos`. -/
def rfind_char (c : Char) (s : List Char) : Option Nat :=
  (List.findIdx? (· = c) s.reverse).map (fun i => s.length - 1 - i)

/-! ## URL resolver (`src/src/main.cpp`, `resolve_url`)

The C++ function works on `std::string`; `resolve_url_chars` is the same
computation on the underlying character lists, and `resolve_url` wraps it for
`String`.  The C++ function signals rejection with the empty string, and its
caller `search_for_links` keeps only non-empty results; `resolve` packages
that emptiness check as an `Option`. -/

/-- Function `resolve_url` from `main.cpp`, character-list form.  Branches, in source
order: reject `javascript:`/`mailto:` prefixes and any href containing `#`;
pass absolute `http://`/`https://` hrefs through; prefix scheme-relative
`//…` hrefs with the base's text up to its first `:`; prefix root-relative
`/…` hrefs with the base's text up to the first `/` after its `//` (the whole
base if there is none), rejecting a base with no `//`; resolve any other href
against the base truncated at its last `/` when that slash sits at an index
greater than 7, else join base and href with `/`. -/
def resolve_url_chars (base_url relative_url : List Char) : List Char :=
  if starts_with "javascript:".toList relative_url
      || starts_with "mailto:".toList relative_url
      || relative_url.contains '#' then
    []
  else if starts_with "http://".toList relative_url
      || starts_with "https://".toList relative_url then
    relative_url
  else if starts_with "//".toList relative_url then
    match find_char ':' base_url with
    | some proto_end => base_url.take (proto_end + 1) ++ relative_url
    | none => []
  else if starts_with "/".toList relative_url then
    match find_sub "//".toList base_url with
    | none => []
    | some protocol_pos =>
      match find_char_from '/' (protocol_pos + 2) base_url with
      | some domain_end => base_url.take domain_end ++ relative_url
      | none => base_url ++ relative_url
  else
    match rfind_char '/' base_url with
    | some last_slash =>
      if 7 < last_slash then base_url.take (last_slash + 1) ++ relative_url
      else base_url ++ '/' :: relative_url
    | none => base_url ++ '/' :: relative_url

/-- Wrapper for `resolve_url` on `String`, keeping the source's name. -/
def resolve_url (base_url relative_url : String) : String :=
  (resolve_url_chars base_url.toList relative_url.toList).asString

/-- The resolver as its caller consumes it: `search_for_links` drops the
result when it is empty, so rejection is `none`. -/
def resolve (base_url href : String) : Option String :=
  let resolved := resolve_url base_url href
  if resolved = "" then none else some resolved

/-! ## Domain filter (`src/src/main.cpp`, worker link-enqueue loop)

Inside `worker_thread_function`, each extracted link is kept only when it
literally starts with the *current page URL's* scheme+authority segment:
`domain = url.substr(0, url.find('/', url.find("//") + 2))` and
`link.rfind(domain, 0) == 0`. -/

/-- The worker's `domain` computation, character-list form.  When the URL
contains no `//`, C++ `npos + 2` wraps around `size_t` to `1` (the string is
far shorter than `2^64`), so the slash search starts at index 1; and
`substr(0, npos)` yields the whole string when no further `/` exists. -/
def domain_of_chars (url : List Char) : List Char :=
  let start_domain_pos : Nat :=
    match find_sub "//".toList url with
    | some p => p + 2
    | none => 1
  match find_char_from '/' start_domain_pos url with
  | some end_domain_pos => url.take end_domain_pos
  | none => url

/-- The worker's `domain` string for the page currently being processed. -/
def domain_of (url : String) : String :=
  (domain_of_chars url.toList).asString

/-- Test `link.rfind(domain, 0) == 0`: the domain-filter test of the worker. -/
def passes_domain_filter (url link : String) : Bool :=
  starts_with (domain_of url).toList link.toList

/-- The link-enqueue loop of `worker_thread_function`: of the resolved
links of the page at `url`, exactly those passing the domain filter are
pushed to the Frontier, in order. -/
def links_to_push (url : String) (links : List String) : List String :=
  links.filter (fun link => passes_domain_filter url link)

/-! ## Visited set (`src/include/thread_safe_set.hpp`)

`ThreadSafeSet` wraps a `std::unordered_set<std::string>` under a mutex; we
model its state as the list of distinct elements currently stored. -/

/-- Model of `ThreadSafeSet::insert`: `visited_urls.insert(url).second` — inserts `url`
if absent, and returns `true` exactly when the insertion occurred. -/
def ThreadSafeSet.insert (s : List String) (url : String) : Bool × List String :=
  if url ∈ s then (false, s) else (true, url :: s)

/-- Model of `ThreadSafeSet::contains`: `visited_urls.count(url) > 0`. -/
def ThreadSafeSet.contains (s : List String) (url : String) : Bool :=
  decide (url ∈ s)

/-- Model of `ThreadSafeSet::size`: `visited_urls.size()`. -/
def ThreadSafeSet.size (s : List String) : Nat :=
  s.length

/-- Results of `n` successive `insert` calls with the same `url`, starting
from state `s` (each call runs on the state left by the previous one). -/
def insert_calls (s : List String) (url : String) : Nat → List Bool
  | 0 => []
  | n + 1 =>
    let r := ThreadSafeSet.insert s url
    r.1 :: insert_calls r.2 url n

/-! ## Frontier (`src/include/thread_safe_queue.hpp`)

`ThreadSafeQueue<T>` is a mutex-guarded `std::queue<T>` plus a
`stop_requested` flag and a condition variable.  We model the queue contents
as a list, front first.  `pop` runs entirely after
`cond.wait(lock, [this] (not queue.empty()) or stop_requested)`
returns, i.e. at a decision point where the wake predicate holds; the state
in which the wake predicate is false (`queue` empty, stop not requested)
never reaches the body, which we represent by the explicit outcome
`PopResult.blocked`. -/

/-- Outcome of `ThreadSafeQueue::pop`: the `STOP` sentinel (`std::nullopt`),
a dequeued item, or no return at all (the condition-variable wait does not
wake while the queue is empty and stop has not been requested). -/
inductive PopResult
  | stopSentinel
  | item (x : String)
  | blocked
  deriving DecidableEq, Repr

/-- Model of `ThreadSafeQueue::push`: appends to the back of the queue. -/
def ThreadSafeQueue.push (q : List String) (x : String) : List String :=
  q ++ [x]

/-- Model of `ThreadSafeQueue::pop` at the decision point, given the stop flag and the
queue contents: returns `nullopt` when stop is requested and the queue is
empty, otherwise removes and returns the front item; `blocked` marks the
state the wait predicate never releases. -/
def ThreadSafeQueue.pop (stop : Bool) (q : List String) : PopResult × List String :=
  if stop ∧ q = [] then (PopResult.stopSentinel, q)
  else
    match q with
    | [] => (PopResult.blocked, [])
    | x :: xs => (PopResult.item x, xs)

/-! ## Worker loop body (`src/src/main.cpp`, `worker_thread_function`)

One iteration of the worker loop on a popped URL.  The fetch
(`curl_easy_perform` plus the two `curl_easy_getinfo` calls and the Gumbo
parse) is the external collaborator; its outcome for a given URL is an
oracle argument.  The iteration's observable effects are recorded as an
action trace — counter increments/decrements, the fetch, and Frontier
pushes, in program order — together with the visited-set state it leaves. -/

/-- Outcome of a successful `curl_easy_perform`: the HTTP response code
(`long`), the `CURLINFO_CONTENT_TYPE` string (`none` for a null pointer or
a failed `getinfo`), whether `gumbo_parse` produced a root node, and the
raw `href` attribute values found under the root. -/
structure FetchOk where
  response_code : Int
  content_type : Option String
  parse_ok : Bool
  hrefs : List String

/-- The content-type gate of the worker:
`res == CURLE_OK && ct && std::string(ct).find("text/html") != npos`. -/
def is_html_content (ct : Option String) : Bool :=
  match ct with
  | some s => (find_sub "text/html".toList s.toList).isSome
  | none => false

/-- An observable effect of one worker-loop iteration, in program order. -/
inductive WorkerAction
  | incActive
  | decActive
  | fetchUrl (url : String)
  | pushUrl (link : String)
  deriving DecidableEq, Repr

/-- One iteration of the `while` loop of `worker_thread_function` on the
popped `url`, given the visited-set state and the fetch oracle (`none`
models a `curl_easy_perform` failure): dedup check first (`continue` on a
losing `insert`), then increment, fetch, conditional extraction —
non-empty hrefs resolved against `url`, empty resolutions dropped,
survivors filtered by the domain prefix test and pushed — and decrement. -/
def worker_process (fetch : String → Option FetchOk) (visited : List String)
    (url : String) : List WorkerAction × List String :=
  let r := ThreadSafeSet.insert visited url
  if !r.1 then
    ([], r.2)
  else
    let pushes : List String :=
      match fetch url with
      | none => []
      | some f =>
        if 200 ≤ f.response_code ∧ f.response_code < 300 then
          if is_html_content f.content_type then
            if f.parse_ok then
              links_to_push url
                (((f.hrefs.filter (fun h => !h.isEmpty)).filterMap
                  (fun h => resolve url h)))
            else []
          else []
        else []
    (WorkerAction.incActive :: WorkerAction.fetchUrl url ::
      pushes.map WorkerAction.pushUrl ++ [WorkerAction.decActive], r.2)

/-! ## Termination monitor (`src/src/main.cpp`, `main` monitoring loop)

Each poll of the monitor reads `url_queue.empty()` and
`active_workers.load()`; a run of the loop is abstracted by the sequence of
observations the polls make. -/

/-- One poll's observation: the queue-empty snapshot and the active-worker
counter (`std::atomic<int>`). -/
structure MonitorObs where
  queueEmpty : Bool
  active : Int

/-- The monitor's idle test: `is_queue_empty && current_active == 0`. -/
def monitor_idle (o : MonitorObs) : Bool :=
  o.queueEmpty && o.active == 0

/-- The monitoring loop of `main` over a sequence of observations: on each
poll, if the idle test holds it calls `request_stop` and breaks, otherwise
it polls again.  Returns the number of `request_stop` calls made and the
index of the poll at which the loop exited (`none` if the observation
sequence is exhausted with the loop still running). -/
def monitor_loop : List MonitorObs → Nat × Option Nat
  | [] => (0, none)
  | o :: rest =>
    if monitor_idle o then (1, some 0)
    else
      let r := monitor_loop rest
      (r.1, r.2.map (· + 1))

/-! ## Command-line surface (`src/src/main.cpp`, `main` entry checks) -/

/-- The constant `NUM_THREADS = 4` of `main.cpp` — the worker-pool size is a
compile-time constant, not read from the command line. -/
def NUM_THREADS : Nat := 4

/-- The argument handling of `main`: with fewer than two `argv` entries it
prints usage and returns 1; otherwise it takes `argv[1]` as the start URL
(ignoring any further arguments) and proceeds to the crawl, which ends with
`return 0`. -/
def main_result (argv : List String) : Except Nat String :=
  match argv with
  | _ :: url :: _ => Except.ok url
  | _ => Except.error 1

/-! ## Visited-set operation sequences (for the monotonicity claim) -/

/-- A call to one of the three public operations of `ThreadSafeSet`. -/
inductive SetOp
  | ins (u : String)
  | qry (u : String)
  | siz

/-- State left by one `ThreadSafeSet` operation: `insert` may add its
argument, `contains` and `size` are read-only. -/
def apply_op (s : List String) : SetOp → List String
  | SetOp.ins u => (ThreadSafeSet.insert s u).2
  | SetOp.qry _ => s
  | SetOp.siz => s

/-- State after a sequence of `ThreadSafeSet` operations. -/
def run_ops (s : List String) (ops : List SetOp) : List String :=
  ops.foldl apply_op s

end Crawler

namespace Crawler

/-- C1: `ThreadSafeSet::insert(url)` returns `true` iff `url` was absent
before the call, it records `url`, and in any sequence of repeated `insert`
calls on the same `url` exactly the first returns `true` (when `url` starts
absent) and every later call returns `false`. -/
theorem c1_insert_dedup_exact (s : List String) (url : String) :
    ((ThreadSafeSet.insert s url).1 = true ↔ url ∉ s) ∧
    url ∈ (ThreadSafeSet.insert s url).2 ∧
    (url ∉ s → ∀ n : Nat,
      insert_calls s url (n + 1) = true :: List.replicate n false) := by
  refine ⟨?_, ?_, ?_⟩
  · unfold ThreadSafeSet.insert
    by_cases h : url ∈ s <;> simp [h]
  · unfold ThreadSafeSet.insert
    by_cases h : url ∈ s <;> simp [h]
  · intro h n
    induction n with
    | zero => simp [insert_calls, ThreadSafeSet.insert, h]
    | succ m ih =>
      have hmem : url ∈ (ThreadSafeSet.insert s url).2 := by
        unfold ThreadSafeSet.insert
        by_cases h' : url ∈ s <;> simp [h']
      have hstate : (ThreadSafeSet.insert s url).2 = url :: s := by
        unfold ThreadSafeSet.insert
        simp [h]
      have hfalse : ∀ (t : List String) (k : Nat), url ∈ t →
          insert_calls t url k = List.replicate k false := by
        intro t k
        induction k generalizing t with
        | zero => intro _; simp [insert_calls]
        | succ j ihj =>
          intro hmem'
          have h1 : ThreadSafeSet.insert t url = (false, t) := by
            unfold ThreadSafeSet.insert
            simp [hmem']
          simp [insert_calls, h1, ihj t hmem', List.replicate_succ]
      have h1 : ThreadSafeSet.insert s url = (true, url :: s) := by
        unfold ThreadSafeSet.insert
        simp [h]
      simp [insert_calls, h1]
      have := hfalse (url :: s) (m + 1) (by simp)
      simpa [insert_calls] using this

/-- Witness for C1 at a concrete state: inserting `"a"` into the empty set
succeeds, records it, and of three repeated calls only the first returns
`true`. -/
theorem c1_witness :
    insert_calls [] "a" 3 = [true, false, false] := by
  have h := (c1_insert_dedup_exact [] "a").2.2 (by simp) 2
  simpa using h

/-- C2: `pop` returns the `STOP` sentinel iff the stop flag is set and the
queue is empty at the decision point; on a non-empty queue — even with stop
set — it returns the front item, and pushes accumulate at the back in FIFO
order, so remaining work is drained before stopping. -/
theorem c2_pop_stop_sentinel_iff (stop : Bool) (q : List String) :
    ((ThreadSafeQueue.pop stop q).1 = PopResult.stopSentinel ↔
      stop = true ∧ q = []) ∧
    (∀ x xs, q = x :: xs →
      ThreadSafeQueue.pop stop q = (PopResult.item x, xs)) ∧
    (∀ pushes : List String,
      List.foldl ThreadSafeQueue.push q pushes = q ++ pushes) := by
  refine ⟨?_, ?_, ?_⟩
  · unfold ThreadSafeQueue.pop
    rcases q with _ | ⟨x, xs⟩
    · cases stop <;> simp
    · cases stop <;> simp
  · intro x xs hq
    subst hq
    unfold ThreadSafeQueue.pop
    cases stop <;> simp
  · intro pushes
    induction pushes generalizing q with
    | nil => simp
    | cons p ps ih =>
      simp [ThreadSafeQueue.push, ih, List.append_assoc]

/-- Witness for C2 at a concrete state: with stop set and the queue holding
`"u"` then `"v"`, `pop` still returns `"u"` and leaves `"v"`. -/
theorem c2_witness :
    ThreadSafeQueue.pop true ["u", "v"] = (PopResult.item "u", ["v"]) :=
  (c2_pop_stop_sentinel_iff true ["u", "v"]).2.1 "u" ["v"] rfl

/-- C3: the resolver table from the spec, for base
`"https://example.com/a/b"`: root-relative, scheme-relative, absolute,
fragment-only, and path-relative hrefs resolve exactly as listed. -/
theorem c3_resolver_table :
    resolve "https://example.com/a/b" "/about"
      = some "https://example.com/about" ∧
    resolve "https://example.com/a/b" "//cdn.example.com/x"
      = some "https://cdn.example.com/x" ∧
    resolve "https://example.com/a/b" "https://other.com/y"
      = some "https://other.com/y" ∧
    resolve "https://example.com/a/b" "#frag" = none ∧
    resolve "https://example.com/a/b" "relative.html"
      = some "https://example.com/a/relative.html" := by
  refine ⟨?_, ?_, ?_, ?_, ?_⟩ <;> decide

/-- A root-relative href (`'/' :: t`, not scheme-relative) against a base
with no `//` takes the root-relative branch and is rejected. -/
theorem resolve_root_rel_aux (base t : List Char)
    (h2 : starts_with "//".toList ('/' :: t) = false)
    (h3 : find_sub "//".toList base = none) :
    resolve_url_chars base ('/' :: t) = [] := by
  have hjs : starts_with "javascript:".toList ('/' :: t) = false := rfl
  have hmail : starts_with "mailto:".toList ('/' :: t) = false := rfl
  have hhttp : starts_with "http://".toList ('/' :: t) = false := rfl
  have hhttps : starts_with "https://".toList ('/' :: t) = false := rfl
  have hslash : starts_with "/".toList ('/' :: t) = true := by
    simp [starts_with, List.isPrefixOf_cons₂]
  unfold resolve_url_chars
  rw [hjs, hmail, hhttp, hhttps, h2, hslash, h3]
  by_cases hc : ('/' :: t).contains '#'
  · simp [hc]
  · simp [hc]

/-- A scheme-relative href against a base with no `:` is rejected. -/
theorem resolve_scheme_rel_aux (base t : List Char)
    (h2 : starts_with "//".toList t = true)
    (h3 : find_char ':' base = none) :
    resolve_url_chars base t = [] := by
  obtain ⟨u, hu⟩ : ∃ u, t = '/' :: '/' :: u := by
    rcases t with _ | ⟨c, _ | ⟨d, u⟩⟩
    · exact absurd h2 (by decide)
    · exact absurd h2 (by simp [starts_with, List.isPrefixOf_cons₂, List.isPrefixOf])
    · refine ⟨u, ?_⟩
      simp [starts_with, List.isPrefixOf_cons₂] at h2
      obtain ⟨hc, hd⟩ := h2
      rw [← hc, ← hd]
  subst hu
  have hjs : starts_with "javascript:".toList ('/' :: '/' :: u) = false := rfl
  have hmail : starts_with "mailto:".toList ('/' :: '/' :: u) = false := rfl
  have hhttp : starts_with "http://".toList ('/' :: '/' :: u) = false := rfl
  have hhttps : starts_with "https://".toList ('/' :: '/' :: u) = false := rfl
  have hss : starts_with "//".toList ('/' :: '/' :: u) = true := by
    simp [starts_with, List.isPrefixOf_cons₂]
  unfold resolve_url_chars
  rw [hjs, hmail, hhttp, hhttps, hss, h3]
  by_cases hc : ('/' :: '/' :: u).contains '#'
  · simp [hc]
  · simp [hc]

/-- C8 counterexample: the base `"nonsense"` contains no `//`, yet the
path-relative href `"rel.html"` does not resolve to `none` — the resolver
returns `some "nonsense/rel.html"`, so the missing-`//` rejection does not
apply to rawHrefs of every shape. -/
theorem c8_counterexample :
    find_sub "//".toList "nonsense".toList = none ∧
    resolve "nonsense" "rel.html" = some "nonsense/rel.html" :=
  ⟨by decide, by decide⟩

/-- C8 amended: the missing-structure rejection is branch-local — a
root-relative href (starting with `/` but not `//`) is rejected when the
base contains no `//`, and a scheme-relative href (starting with `//`) is
rejected when the base contains no `:`; absolute and path-relative hrefs do
not consult the base's `//` structure. -/
theorem c8_base_structure_guard (base rel : String) :
    (starts_with "/".toList rel.toList = true →
     starts_with "//".toList rel.toList = false →
     find_sub "//".toList base.toList = none →
     resolve base rel = none) ∧
    (starts_with "//".toList rel.toList = true →
     find_char ':' base.toList = none →
     resolve base rel = none) := by
  constructor
  · intro h1 h2 h3
    obtain ⟨t, ht⟩ : ∃ t, rel.toList = '/' :: t := by
      rcases hL : rel.toList with _ | ⟨c, t⟩
      · rw [hL] at h1
        exact absurd h1 (by decide)
      · rw [hL] at h1
        simp [starts_with, List.isPrefixOf_cons₂] at h1
        exact ⟨t, by rw [← h1]⟩
    rw [ht] at h2
    have hkey : resolve_url_chars base.toList rel.toList = [] := by
      rw [ht]
      exact resolve_root_rel_aux base.toList t h2 h3
    have hempty : resolve_url base rel = "" := by
      unfold resolve_url
      rw [hkey]
      rfl
    simp [resolve, hempty]
  · intro h2 h3
    have hkey : resolve_url_chars base.toList rel.toList = [] :=
      resolve_scheme_rel_aux base.toList rel.toList h2 h3
    have hempty : resolve_url base rel = "" := by
      unfold resolve_url
      rw [hkey]
      rfl
    simp [resolve, hempty]

/-- Witness for C8 amended at concrete inputs: against the structureless
base `"nonsense"`, the root-relative href `"/a"` and the scheme-relative
href `"//h/x"` are both rejected. -/
theorem c8_witness :
    resolve "nonsense" "/a" = none ∧ resolve "nonsense" "//h/x" = none :=
  ⟨(c8_base_structure_guard "nonsense" "/a").1
      (by decide) (by decide) (by decide),
   (c8_base_structure_guard "nonsense" "//h/x").2
      (by decide) (by decide)⟩

/-- C4 counterexample: while processing the seed page
`"https://example.com/page"`, the resolved link
`"https://example.com.attacker.net/x"` has a different scheme+authority
segment than the seed, yet it passes resolution and the prefix filter and is
pushed to the Frontier — the literal prefix match accepts any authority that
textually extends the reference one. -/
theorem c4_counterexample :
    domain_of "https://example.com.attacker.net/x"
      ≠ domain_of "https://example.com/page" ∧
    resolve "https://example.com/page" "https://example.com.attacker.net/x"
      = some "https://example.com.attacker.net/x" ∧
    links_to_push "https://example.com/page"
        ["https://example.com.attacker.net/x"]
      = ["https://example.com.attacker.net/x"] :=
  ⟨by decide, by decide, by decide⟩

/-- C4 amended: a resolved link is pushed to the Frontier iff it is a
literal string-prefix extension of the scheme+authority segment derived
from the current page's URL; in particular a link that does not start with
that segment is never pushed, but a link whose authority merely textually
extends it may be. -/
theorem c4_filter_literal_domain_match (url link : String)
    (links : List String) :
    link ∈ links_to_push url links ↔
      link ∈ links ∧
      starts_with (domain_of url).toList link.toList = true := by
  simp [links_to_push, passes_domain_filter, List.mem_filter]

/-- Witness for C4 amended at concrete inputs: from the page
`"https://example.com/page"`, the same-domain link is pushed and the
other-domain link `"https://other.com/y"` is not. -/
theorem c4_witness :
    "https://example.com/a" ∈
      links_to_push "https://example.com/page"
        ["https://example.com/a", "https://other.com/y"] ∧
    "https://other.com/y" ∉
      links_to_push "https://example.com/page"
        ["https://example.com/a", "https://other.com/y"] :=
  ⟨(c4_filter_literal_domain_match "https://example.com/page"
      "https://example.com/a"
      ["https://example.com/a", "https://other.com/y"]).mpr
      ⟨by decide, by decide⟩,
   fun h =>
     absurd ((c4_filter_literal_domain_match "https://example.com/page"
       "https://other.com/y"
       ["https://example.com/a", "https://other.com/y"]).mp h).2
       (by decide)⟩

/-- C5: over any sequence of observations, the monitor loop exits exactly at
the first poll whose observation is idle (queue empty and zero active
workers) — never at any other poll — and the number of `request_stop` calls
it makes is one if such a poll occurs and zero while the loop is still
running, so `request_stop` is issued exactly once per completed run, at the
idle observation. -/
theorem c5_monitor_requests_stop_once (obs : List MonitorObs) :
    (monitor_loop obs).2 = obs.findIdx? monitor_idle ∧
    (monitor_loop obs).1 = (if obs.any monitor_idle then 1 else 0) := by
  induction obs with
  | nil => simp [monitor_loop]
  | cons o rest ih =>
    by_cases h : monitor_idle o
    · simp [monitor_loop, h]
    · have hf : monitor_idle o = false := by simpa using h
      simp [monitor_loop, hf, List.findIdx?_succ, ih.1, ih.2]

/-- C6: a popped URL that loses the Visited-Set check-and-insert produces an
empty action trace — no fetch, no push, no counter increment or decrement —
and leaves the visited set unchanged; conversely the counter is incremented
only in iterations whose dedup check succeeded. -/
theorem c6_dedup_skip_frame (fetch : String → Option FetchOk)
    (visited : List String) (url : String) :
    (url ∈ visited → worker_process fetch visited url = ([], visited)) ∧
    (WorkerAction.incActive ∈ (worker_process fetch visited url).1 →
      url ∉ visited) := by
  constructor
  · intro h
    unfold worker_process ThreadSafeSet.insert
    simp [h]
  · intro hmem h
    have : worker_process fetch visited url = ([], visited) := by
      unfold worker_process ThreadSafeSet.insert
      simp [h]
    rw [this] at hmem
    simp at hmem

/-- Witness for C6 at a concrete state: popping `"u"` with `"u"` already
visited (fetch oracle always failing) performs no actions and leaves the
visited set as it was. -/
theorem c6_witness :
    worker_process (fun _ => none) ["u"] "u" = ([], ["u"]) :=
  (c6_dedup_skip_frame (fun _ => none) ["u"] "u").1 (by simp)

/-- C7: for a fresh URL whose fetch succeeds but whose status is outside
2xx or whose content type is not HTML, the iteration's trace is exactly
increment, fetch, decrement — no extraction, nothing pushed — and the URL
stays recorded in the visited set. -/
theorem c7_non_success_skip (fetch : String → Option FetchOk)
    (visited : List String) (url : String) (f : FetchOk)
    (hnew : url ∉ visited) (hf : fetch url = some f)
    (hskip : ¬(200 ≤ f.response_code ∧ f.response_code < 300) ∨
      is_html_content f.content_type = false) :
    (worker_process fetch visited url).1 =
      [WorkerAction.incActive, WorkerAction.fetchUrl url,
       WorkerAction.decActive] ∧
    (worker_process fetch visited url).2 = url :: visited ∧
    url ∈ (worker_process fetch visited url).2 := by
  have hins : ThreadSafeSet.insert visited url = (true, url :: visited) := by
    unfold ThreadSafeSet.insert
    simp [hnew]
  rcases hskip with hs | hs
  · refine ⟨?_, ?_, ?_⟩ <;>
      simp [worker_process, hins, hf, hs]
  · by_cases h2 : 200 ≤ f.response_code ∧ f.response_code < 300
    · refine ⟨?_, ?_, ?_⟩ <;>
        simp [worker_process, hins, hf, h2, hs]
    · refine ⟨?_, ?_, ?_⟩ <;>
        simp [worker_process, hins, hf, h2]

/-- Witness for C7 at a concrete state: fetching fresh `"u"` with a 404
response produces exactly increment, fetch, decrement, and `"u"` is
recorded as visited. -/
theorem c7_witness :
    (worker_process (fun _ => some ⟨404, none, true, []⟩) [] "u").1 =
      [WorkerAction.incActive, WorkerAction.fetchUrl "u",
       WorkerAction.decActive] ∧
    "u" ∈ (worker_process (fun _ => some ⟨404, none, true, []⟩) [] "u").2 :=
  ⟨(c7_non_success_skip (fun _ => some ⟨404, none, true, []⟩) [] "u"
      ⟨404, none, true, []⟩ (by simp) rfl (by norm_num)).1,
   (c7_non_success_skip (fun _ => some ⟨404, none, true, []⟩) [] "u"
      ⟨404, none, true, []⟩ (by simp) rfl (by norm_num)).2.2⟩

/-- C9 counterexample: under the claim, the invocation
`./crawler https://example.com abc` carries an invalid worker-thread-count
argument and must be rejected with a usage message and a non-zero exit;
the program instead accepts it — `argv[1]` becomes the start URL, extra
arguments are ignored, and the pool size is the constant `4`, which is not
read from the command line at all. -/
theorem c9_counterexample :
    main_result ["./crawler", "https://example.com", "abc"]
      = Except.ok "https://example.com" ∧
    NUM_THREADS = 4 :=
  ⟨rfl, rfl⟩

/-- C9 amended: the program takes one positional argument, the start URL
(`argv[1]`; any further arguments are ignored); a missing URL argument
produces a usage message and exit code 1; otherwise the crawl proceeds to
a `return 0`, and the worker-thread count is the fixed constant 4. -/
theorem c9_cli_surface (prog url : String) (rest : List String) :
    main_result (prog :: url :: rest) = Except.ok url ∧
    main_result [prog] = Except.error 1 ∧
    main_result ([] : List String) = Except.error 1 ∧
    NUM_THREADS = 4 :=
  ⟨rfl, rfl, rfl, rfl⟩

/-- Membership in the visited set survives any single operation. -/
theorem apply_op_mem_mono (s : List String) (op : SetOp) (v : String)
    (h : v ∈ s) : v ∈ apply_op s op := by
  cases op with
  | ins u =>
    unfold apply_op ThreadSafeSet.insert
    by_cases hu : u ∈ s <;> simp [hu, h]
  | qry u => exact h
  | siz => exact h

/-- No single operation shrinks the visited set. -/
theorem apply_op_size_mono (s : List String) (op : SetOp) :
    s.length ≤ (apply_op s op).length := by
  cases op with
  | ins u =>
    unfold apply_op ThreadSafeSet.insert
    by_cases hu : u ∈ s <;> simp [hu]
  | qry u => exact Nat.le.refl
  | siz => exact Nat.le.refl

/-- Membership in the visited set survives any operation sequence. -/
theorem run_ops_mem_mono (s : List String) (ops : List SetOp) (v : String)
    (h : v ∈ s) : v ∈ run_ops s ops := by
  induction ops generalizing s with
  | nil => exact h
  | cons op rest ih =>
    exact ih (apply_op s op) (apply_op_mem_mono s op v h)

/-- C10: the visited set is monotone — after `insert(u)`, `contains(u)`
reports `true` after every subsequent operation sequence; no operation ever
removes an element; and `size` is non-decreasing across any operation
sequence. -/
theorem c10_visited_set_monotone (s : List String) (ops : List SetOp)
    (u : String) :
    ThreadSafeSet.contains
      (run_ops (apply_op s (SetOp.ins u)) ops) u = true ∧
    (∀ v : String, v ∈ s → v ∈ run_ops s ops) ∧
    ThreadSafeSet.size s ≤ ThreadSafeSet.size (run_ops s ops) := by
  refine ⟨?_, ?_, ?_⟩
  · have hmem : u ∈ apply_op s (SetOp.ins u) := by
      unfold apply_op ThreadSafeSet.insert
      by_cases hu : u ∈ s <;> simp [hu]
    have := run_ops_mem_mono (apply_op s (SetOp.ins u)) ops u hmem
    simpa [ThreadSafeSet.contains] using this
  · intro v hv
    exact run_ops_mem_mono s ops v hv
  · unfold ThreadSafeSet.size
    induction ops generalizing s with
    | nil => exact Nat.le.refl
    | cons op rest ih =>
      exact Nat.le_trans (apply_op_size_mono s op) (ih (apply_op s op))

/-- Witness for C10 at a concrete state: after inserting `"a"` into the
empty set, `contains "a"` still holds after a later insert, query, and size
call, and the element `"b"` of the starting state is never removed. -/
theorem c10_witness :
    ThreadSafeSet.contains
      (run_ops (apply_op ["b"] (SetOp.ins "a"))
        [SetOp.ins "c", SetOp.qry "a", SetOp.siz]) "a" = true ∧
    "b" ∈ run_ops ["b"] [SetOp.ins "c", SetOp.qry "a", SetOp.siz] :=
  ⟨(c10_visited_set_monotone ["b"]
      [SetOp.ins "c", SetOp.qry "a", SetOp.siz] "a").1,
   (c10_visited_set_monotone ["b"]
      [SetOp.ins "c", SetOp.qry "a", SetOp.siz] "a").2.1 "b" (by simp)⟩

end Crawler
